import Mathlib

/-!
Verification of the Close-Series Resolver, derived-metrics calculator,
rolling average and comparison-chart logic of the financial-data dashboard
(source files `data.py`, `metrics.py`, `plots.py`, `financialdata.py`).

The pandas objects are shallowly embedded:

* a cell value is `Option ℚ` (`none` models `NaN`);
* a column carries its label, its cells and its dtype flag `numeric`
  (pandas stores the dtype on the column; `float(...)` coercion of a value
  taken from a non-numeric (object-dtype) column is modelled as raising);
* a frame's column index is either flat (single-level labels) or a
  two-level `MultiIndex` pairing a field name with a ticker symbol;
* a fetched object is Python `None`, a Series, or a DataFrame;
* code that can raise an exception is embedded in `Except Unit`;
  `Except.error ()` models an uncaught Python exception.

Index-only operations of the source (`pd.to_datetime` on the index,
`tz_localize`, `sort_index` over the date index that the data model
guarantees to be strictly increasing) do not alter the value sequence and
are not modelled; `dropna` is.
-/

/-- A cell value: `none` models pandas `NaN`. -/
abbrev Val := Option ℚ

/-- A single-level (flat) column: label, cells, and numeric-dtype flag. -/
structure FlatCol where
  name : String
  cells : List Val
  numeric : Bool
  deriving DecidableEq, Repr

/-- A two-level (`MultiIndex`) column: `(l0, l1)` pairs the field name with
the ticker symbol. -/
structure MultiCol where
  l0 : String
  l1 : String
  cells : List Val
  numeric : Bool
  deriving DecidableEq, Repr

/-- A frame's column index is flat or a two-level `MultiIndex`
(pandas never mixes the two in one frame). -/
inductive Cols where
  | flat (cs : List FlatCol)
  | multi (cs : List MultiCol)
  deriving DecidableEq, Repr

/-- A DataFrame: columns plus the number of rows (`len(df)`). -/
structure Frame where
  cols : Cols
  nrows : ℕ
  deriving DecidableEq, Repr

/-- A series label: the flat name or the `MultiIndex` tuple it came from. -/
inductive Label where
  | flat (s : String)
  | pair (a b : String)
  deriving DecidableEq, Repr

/-- A pandas Series: optional name, cells, numeric-dtype flag. -/
structure PSeries where
  name : Option Label
  cells : List Val
  numeric : Bool
  deriving DecidableEq, Repr

/-- A fetched object: Python `None`, a Series, or a DataFrame. -/
inductive Obj where
  | pynone
  | series (s : PSeries)
  | frame (f : Frame)
  deriving DecidableEq, Repr

/-- Python `str.lower()` over the ASCII labels in play (defined over the
character list so that it evaluates by kernel reduction). -/
def strLower (s : String) : String := ⟨s.data.map Char.toLower⟩

/-- `('close', 'adj close', 'adj_close', 'adjclose')` of `data.py` line 40/46
and `financialdata.py` line 66. -/
def closeAliases : List String := ["close", "adj close", "adj_close", "adjclose"]

/-- The field names a Price Table may use (spec data model §3). -/
def fieldNames : List String := ["Open", "High", "Low", "Close", "Volume"]

/-- The series handed back for a matched flat column (`data[col]` keeps the
column's cells, label and dtype; with unique labels the lookup by a label
taken from `data.columns` returns exactly that column). -/
def ofFlatCol (c : FlatCol) : PSeries := ⟨some (Label.flat c.name), c.cells, c.numeric⟩

/-- The series handed back for a matched `MultiIndex` column. -/
def ofMultiCol (c : MultiCol) : PSeries := ⟨some (Label.pair c.l0 c.l1), c.cells, c.numeric⟩

/-- `data.py` `_get_close_series` (lines 24–51).
For a `MultiIndex` frame the final flat loop of the source iterates over the
rendered tuple strings `"('Close', 'AAPL')"`; such a string can never equal a
member of `closeAliases` (every alias starts with a letter), so that loop is
a no-op and is elided here. -/
def getCloseSeries_data (data : Obj) : Option PSeries :=
  match data with
  | .pynone => none
  | .series s => some { s with name := some (Label.flat "Close") }
  | .frame f =>
    match f.cols with
    | .multi cs =>
      -- for col in cols: if any(str(level).lower() in aliases for level in col)
      (cs.find? (fun c =>
        decide (strLower c.l0 ∈ closeAliases) || decide (strLower c.l1 ∈ closeAliases))).map ofMultiCol
    | .flat cs =>
      -- for col in cols: if str(col).lower() in aliases
      (cs.find? (fun c => decide (strLower c.name ∈ closeAliases))).map ofFlatCol

/-- `financialdata.py` `_get_close_series` (lines 27–79).
For a `MultiIndex` frame, after the two explicit loops the source still runs
the flat checks: `'Close' in data.columns` (partial level-0 membership) can
only hold when some `l0 = "Close"`, which the first loop already caught, and
the alias loop compares rendered tuple strings that can never equal an
alias; both are therefore no-ops there and are elided.  The last resort is
`select_dtypes(include=['number'])`: the first numeric-dtype column. -/
def getCloseSeries_fd (data : Obj) : Option PSeries :=
  match data with
  | .pynone => none
  | .series s => some { s with name := some (Label.flat "Close") }
  | .frame f =>
    match f.cols with
    | .multi cs =>
      -- for col in cols: if str(col[0]).lower() == 'close'
      match cs.find? (fun c => strLower c.l0 == "close") with
      | some c => some (ofMultiCol c)
      | none =>
        -- for col in cols: if 'Close' in [str(c) for c in col]
        match cs.find? (fun c => c.l0 == "Close" || c.l1 == "Close") with
        | some c => some (ofMultiCol c)
        | none =>
          -- select_dtypes fallback: first numeric column
          (cs.find? (fun c => c.numeric)).map ofMultiCol
    | .flat cs =>
      -- if 'Close' in data.columns: return data['Close']
      match cs.find? (fun c => c.name == "Close") with
      | some c => some (ofFlatCol c)
      | none =>
        -- for alt in aliases: for c in data.columns: if str(c).lower() == alt
        match closeAliases.findSome? (fun alt => cs.find? (fun c => strLower c.name == alt)) with
        | some c => some (ofFlatCol c)
        | none =>
          -- select_dtypes fallback: first numeric column
          (cs.find? (fun c => c.numeric)).map ofFlatCol

/-- A column of the `data.py` resolver qualifies as a close column when some
level of its label case-insensitively matches a close alias. -/
def QualifiesData (f : Frame) : Prop :=
  match f.cols with
  | .flat cs => ∃ c ∈ cs, strLower c.name ∈ closeAliases
  | .multi cs => ∃ c ∈ cs, strLower c.l0 ∈ closeAliases ∨ strLower c.l1 ∈ closeAliases

instance (f : Frame) : Decidable (QualifiesData f) := by
  unfold QualifiesData
  cases f.cols <;> exact inferInstance

/-- The cell lists of the columns of a frame. -/
def frameCellLists (f : Frame) : List (List Val) :=
  match f.cols with
  | .flat cs => cs.map FlatCol.cells
  | .multi cs => cs.map MultiCol.cells

/-- The result of a resolver is genuine input data: the renamed input series
itself, or the cells of one of the input frame's columns. -/
def FromObj (d : Obj) (s : PSeries) : Prop :=
  (∃ s0, d = Obj.series s0 ∧ s.cells = s0.cells) ∨
  (∃ f, d = Obj.frame f ∧ s.cells ∈ frameCellLists f)

/-! ### Numeric helpers shared by the metric calculations -/

/-- Drop the `NaN` entries of a value list (pandas `dropna` / the implicit
`skipna` of the aggregations). -/
def dropNone (l : List Val) : List ℚ := l.filterMap id

/-- `series.max()` with `skipna`: `NaN` when no non-`NaN` value exists. -/
def seriesMax (cells : List Val) : Val :=
  match dropNone cells with
  | [] => none
  | q :: qs => some (qs.foldl max q)

/-- `series.min()` with `skipna`. -/
def seriesMin (cells : List Val) : Val :=
  match dropNone cells with
  | [] => none
  | q :: qs => some (qs.foldl min q)

/-- `series.mean()` with `skipna`: `NaN` on an all-`NaN`/empty series. -/
def seriesMean (cells : List Val) : Val :=
  match dropNone cells with
  | [] => none
  | q :: qs => some ((q :: qs).sum / (q :: qs).length)

/-- One step of `pct_change`: the relative change from `prev` to the head.
A `NaN` on either side yields `NaN`; the numpy division by a zero `prev`
(yielding `±inf` for a non-zero numerator, `NaN` for a zero one) is modelled
as `NaN` — no theorem below evaluates that branch. -/
def pctChangeAux (prev : Val) : List Val → List Val
  | [] => []
  | v :: rest =>
    (match prev, v with
     | some p, some x => if p = 0 then none else some ((x - p) / p)
     | _, _ => none) :: pctChangeAux v rest

/-- `series.pct_change()`: first entry `NaN`, then period-over-period
relative change. -/
def pctChange (cells : List Val) : List Val :=
  match cells with
  | [] => []
  | v :: rest => none :: pctChangeAux v rest

/-- The sample variance pandas uses under `std()` (`ddof = 1`, over the
non-`NaN` observations): `NaN` when fewer than two observations remain. -/
def sampleVarQ (rs : List ℚ) : Option ℚ :=
  if rs.length < 2 then none
  else
    some (((rs.map (fun r => (r - rs.sum / rs.length) ^ 2)).sum) / (rs.length - 1))

/-- `series.std()`: the square root of the `ddof = 1` sample variance over
the non-`NaN` entries. -/
noncomputable def sampleStd (cells : List Val) : Option ℝ :=
  (sampleVarQ (dropNone cells)).map (fun q => Real.sqrt (q : ℝ))

/-- `close_series.pct_change().std() * 100` — `metrics.py` lines 31 and 64. -/
noncomputable def volatility (cells : List Val) : Option ℝ :=
  (sampleStd (pctChange cells)).map (fun s => s * 100)

/-- Python float division `a / b`: raises `ZeroDivisionError` when `b` is
exactly `0.0`; a `NaN` on either side propagates as `NaN`. -/
def pyDiv (a b : Val) : Except Unit Val :=
  match b with
  | some q => if q = 0 then .error () else .ok (a.map (fun x => x / q))
  | none => .ok none

/-- Division known to be protected by a `!= 0` guard in the source: the
zero-divisor branch is unreachable at every use site and yields `NaN`. -/
def valDivG (a b : Val) : Val :=
  match a, b with
  | some x, some q => if q = 0 then none else some (x / q)
  | _, _ => none

/-- `a - b` on cell values, `NaN`-propagating. -/
def valSub (a b : Val) : Val :=
  match a, b with
  | some x, some y => some (x - y)
  | _, _ => none

/-- `float(v)` for a value taken out of a series: raises (`ValueError` /
`TypeError`) exactly when the series has a non-numeric (object) dtype. -/
def floatCell (numeric : Bool) (v : Val) : Except Unit Val :=
  if numeric then .ok v else .error ()

/-- `float(series.iloc[-1])`: `IndexError` on an empty series, coercion
failure on a non-numeric one. -/
def floatLast (s : PSeries) : Except Unit Val :=
  match s.cells.getLast? with
  | some v => floatCell s.numeric v
  | none => .error ()

/-- `float(series.iloc[0])`. -/
def floatFirst (s : PSeries) : Except Unit Val :=
  match s.cells.head? with
  | some v => floatCell s.numeric v
  | none => .error ()

/-- `float(series.iloc[i])` for a non-negative position. -/
def floatIdx (s : PSeries) (i : ℕ) : Except Unit Val :=
  match s.cells.get? i with
  | some v => floatCell s.numeric v
  | none => .error ()

/-! ### Frame-level helpers -/

/-- `'name' in data.columns`: exact flat membership, or partial level-0
membership for a `MultiIndex`. -/
def hasColTop (f : Frame) (name : String) : Bool :=
  match f.cols with
  | .flat cs => cs.any (fun c => c.name == name)
  | .multi cs => cs.any (fun c => c.l0 == name)

/-- `float(data[name].agg())` for an aggregation `agg`: `some v` when the
coercion succeeds, `none` when it raises.  A flat non-numeric column makes
either the aggregation or the `float` call raise.  For a `MultiIndex` frame
`data[name]` is a level-0 selection (a sub-frame) and `float(...)` of its
aggregate raises; every use site below either wraps this in `try/except`
(so the fallback fires exactly as in the source) or is exercised only on
flat frames. -/
def aggCol (agg : List Val → Val) (f : Frame) (name : String) : Option Val :=
  match f.cols with
  | .flat cs =>
    match cs.find? (fun c => c.name == name) with
    | some c => if c.numeric then some (agg c.cells) else none
    | none => none
  | .multi _ => none

/-- `data.empty` for a DataFrame: no rows or no columns. -/
def frameEmpty (f : Frame) : Bool :=
  f.nrows == 0 ||
  (match f.cols with
   | .flat cs => cs.isEmpty
   | .multi cs => cs.isEmpty)

/-- `data is None or (hasattr(data, 'empty') and data.empty)`. -/
def objNoneOrEmpty (d : Obj) : Bool :=
  match d with
  | .pynone => true
  | .series s => s.cells.isEmpty
  | .frame f => frameEmpty f

/-- `data.empty` where the target may be `None` (no `hasattr` guard):
`None.empty` raises `AttributeError`. -/
def objEmptyE (d : Obj) : Except Unit Bool :=
  match d with
  | .pynone => .error ()
  | .series s => .ok s.cells.isEmpty
  | .frame f => .ok (frameEmpty f)

/-- Every column of the frame has exactly `nrows` cells (the pandas frame
invariant). -/
def WFFrame (f : Frame) : Prop :=
  ∀ cl ∈ frameCellLists f, cl.length = f.nrows

instance (f : Frame) : Decidable (WFFrame f) := by
  unfold WFFrame; exact inferInstance

/-- `avg_volume` with the `try/except` of `metrics.py` lines 32–38 /
`financialdata.py` lines 293–299: mean volume, `0` when the column is
absent, the object is not a DataFrame, or the coercion raises. -/
def avgVolumeTry (d : Obj) : Val :=
  match d with
  | .frame f =>
    if hasColTop f "Volume" then
      match aggCol seriesMean f "Volume" with
      | some v => v
      | none => some 0
    else some 0
  | _ => some 0

/-! ### `metrics.py` — per-ticker comparison metrics and single-stock dashboard -/

/-- The per-ticker record built by `create_comparison_metrics`
(`metrics.py` lines 22–45). -/
structure EntryM where
  currentPrice : Val
  totalReturn : Val
  vol : Option ℝ
  avgVolume : Val

/-- One iteration of the `create_comparison_metrics` loop of `metrics.py`
(lines 22–45) for the looked-up value `data_dict.get(ticker)` (`none` when
the ticker is absent).  `ok none` models `continue` / the failed guard;
`error` models an uncaught exception (the line-30 division raises
`ZeroDivisionError` when the first close value is exactly `0`). -/
noncomputable def compEntry_metrics (data : Option Obj) : Except Unit (Option EntryM) :=
  match data with
  | none => .ok none                       -- ticker not in data_dict
  | some d => do
    let e ← objEmptyE d                    -- not data_dict[ticker].empty
    if e then .ok none
    else
      match getCloseSeries_data d with
      | none => .ok none                   -- continue
      | some close => do
        let cur ← floatLast close          -- float(close_series.iloc[-1])
        let st ← floatFirst close          -- float(close_series.iloc[0])
        let ratio ← pyDiv cur st           -- current_price / start_price
        let tr := ratio.map (fun r => (r - 1) * 100)
        let vol := volatility close.cells  -- pct_change().std() * 100
        .ok (some ⟨cur, tr, vol, avgVolumeTry d⟩)

/-- The metrics of `create_metrics_dashboard` in `metrics.py` (lines 52–75):
`ok none` models the early "Not enough data" return. -/
noncomputable def metricsDashboard_m (data : Obj) : Except Unit (Option EntryM) :=
  match getCloseSeries_data data with
  | none => .ok none
  | some close =>
    if close.cells.length < 2 then .ok none
    else do
      let cur ← floatLast close
      let st ← floatFirst close
      let ratio ← pyDiv cur st             -- line 63: no zero guard either
      let tr := ratio.map (fun r => (r - 1) * 100)
      .ok (some ⟨cur, tr, volatility close.cells, avgVolumeTry data⟩)

/-! ### `financialdata.py` — per-ticker comparison metrics -/

/-- The per-ticker record of `create_comparison_metrics` in
`financialdata.py` (lines 334–355). -/
structure EntryF where
  currentPrice : Val
  totalReturn : Val
  highPrice : Option Val
  lowPrice : Option Val
  avgVolume : Val
  deriving DecidableEq, Repr

/-- One iteration of the `create_comparison_metrics` loop of
`financialdata.py` (lines 334–355) for `data_dict.get(ticker)`.
The line-342 total return carries the `!= 0` guard; the line-343/344/345
High/Low/Volume extractions have no `try/except`, so a present but
non-coercible column raises. -/
def compEntry_fd (data : Option Obj) : Except Unit (Option EntryF) :=
  let d := data.getD .pynone               -- data_dict.get(ticker) is None when absent
  match getCloseSeries_fd d with
  | none => .ok none                       -- warning + continue
  | some close =>
    if close.cells.length = 0 then .ok none
    else do
      let cur ← floatLast close
      let st ← floatFirst close
      let tr := if st = some 0 then some 0
                else (valDivG cur st).map (fun r => (r - 1) * 100)
      let hi ← (match d with
        | .frame f =>
          if hasColTop f "High" then
            match aggCol seriesMax f "High" with
            | some v => .ok (some v)
            | none => .error ()            -- no try/except around line 343
          else .ok (none : Option Val)
        | _ => .ok none)
      let lo ← (match d with
        | .frame f =>
          if hasColTop f "Low" then
            match aggCol seriesMin f "Low" with
            | some v => .ok (some v)
            | none => .error ()
          else .ok (none : Option Val)
        | _ => .ok none)
      let av ← (match d with
        | .frame f =>
          if hasColTop f "Volume" then
            match aggCol seriesMean f "Volume" with
            | some v => .ok v
            | none => .error ()
          else .ok (some (0 : ℚ) : Val)
        | _ => .ok (some 0))
      .ok (some ⟨cur, tr, hi, lo, av⟩)

/-! ### `financialdata.py` — single-stock metrics dashboard -/

/-- The metrics of `create_metrics_dashboard` in `financialdata.py`
(lines 259–327). -/
structure DashM where
  currentPrice : Val
  priceChangePct : Val
  high52 : Val
  low52 : Val
  avgVolume : Val
  deriving DecidableEq, Repr

/-- `high_52w` of `create_metrics_dashboard` (`financialdata.py` lines
277–283): `float(data['High'].max())` inside `try/except`, falling back to
`float(close_series.max())` when the column is absent, the object is not a
DataFrame, or the coercion raises. -/
def dashHigh (data : Obj) (close : PSeries) : Except Unit Val :=
  match data with
  | .frame f =>
    if hasColTop f "High" then
      match aggCol seriesMax f "High" with
      | some v => .ok v
      | none => floatCell close.numeric (seriesMax close.cells)  -- except branch
    else floatCell close.numeric (seriesMax close.cells)
  | _ => floatCell close.numeric (seriesMax close.cells)

/-- `low_52w` of `create_metrics_dashboard` (`financialdata.py` lines
285–291). -/
def dashLow (data : Obj) (close : PSeries) : Except Unit Val :=
  match data with
  | .frame f =>
    if hasColTop f "Low" then
      match aggCol seriesMin f "Low" with
      | some v => .ok v
      | none => floatCell close.numeric (seriesMin close.cells)
    else floatCell close.numeric (seriesMin close.cells)
  | _ => floatCell close.numeric (seriesMin close.cells)

/-- `create_metrics_dashboard` of `financialdata.py` (lines 259–327):
`ok none` models the silent early returns; the High/Low extractions fall
back to the Close series' max/min inside `try/except`, the Volume mean
falls back to `0`. -/
def createMetricsDashboard_fd (data : Obj) : Except Unit (Option DashM) :=
  if objNoneOrEmpty data then .ok none
  else
    match getCloseSeries_fd data with
    | none => .ok none
    | some close =>
      if close.cells.length = 0 then .ok none
      else do
        let cur ← floatLast close
        let prev ← if close.cells.length > 1 then floatIdx close (close.cells.length - 2)
                   else .ok cur
        let chg := valSub cur prev
        let pct := if prev = some 0 then some 0
                   else (valDivG chg prev).map (fun r => r * 100)
        let hi ← dashHigh data close
        let lo ← dashLow data close
        .ok (some ⟨cur, pct, hi, lo, avgVolumeTry data⟩)

/-! ### `data.py` — rolling average -/

/-- `close.rolling(window=w).mean()` with the default
`min_periods = window`: an entry is the mean of the trailing `w` cells when
all of them are available and non-`NaN`, and `NaN` otherwise. -/
def rollingMean (cells : List Val) (window : ℕ) : List Val :=
  (List.range cells.length).map (fun i =>
    if i + 1 < window then none
    else
      let win := (cells.take (i + 1)).drop (i + 1 - window)
      if win.all Option.isSome then
        match dropNone win with
        | [] => none
        | q :: qs => some ((q :: qs).sum / (q :: qs).length)
      else none)

/-- `rolling_average` of `data.py` (lines 54–62): on an unresolved close it
builds `pd.Series([float('nan')] * len(data))`; `len(None)` raises
`TypeError`, and a rolling mean over a non-numeric (object-dtype) series
raises a pandas `DataError`. -/
def rollingAverage_data (data : Obj) (window : ℕ) : Except Unit (List Val) :=
  match getCloseSeries_data data with
  | none =>
    match data with
    | .pynone => .error ()
    | .series s => .ok (List.replicate s.cells.length none)
    | .frame f => .ok (List.replicate f.nrows none)
  | some close =>
    if close.numeric then .ok (rollingMean close.cells window) else .error ()

/-! ### `financialdata.py` — multi-stock comparison chart -/

/-- `data_dict` lookup: Python dict keys are unique, the first binding
stands for the entry. -/
def tickerRaw (dd : List (String × Obj)) (t : String) : Option Obj :=
  (dd.find? (fun p => p.1 == t)).map Prod.snd

/-- One iteration of the `plot_comparison_chart` loop of `financialdata.py`
(lines 99–138): `ok none` models `skipped.append(ticker); continue`,
`ok (some vals)` the normalized trace `((close / close[0]) - 1) * 100`
added for the ticker.  The index normalisation of lines 112–115 only
touches the (already date-sorted) index; `dropna` and the subsequent
length / zero-start guards are modelled.  `float(close_series.iloc[0])`
raises on a non-numeric series. -/
def compChartStep (dd : List (String × Obj)) (t : String) : Except Unit (Option (List ℚ)) :=
  match tickerRaw dd t with
  | none => .ok none                       -- ticker not in data_dict
  | some raw =>
    match getCloseSeries_fd raw with
    | none => .ok none
    | some close =>
      if close.cells.length = 0 then .ok none
      else
        let cleaned := dropNone close.cells  -- sort_index().dropna()
        if cleaned.length < 2 then .ok none
        else if close.numeric = false then .error ()
        else
          let start := cleaned.headD 0
          if start = 0 then .ok none
          else .ok (some (cleaned.map (fun x => (x / start - 1) * 100)))

/-- The outcome of `plot_comparison_chart`: the traces added to the figure,
the `skipped` list, and the `any_traces` flag. -/
structure CompChart where
  traces : List (String × List ℚ)
  skipped : List String
  anyTraces : Bool
  deriving DecidableEq, Repr

/-- The `plot_comparison_chart` loop of `financialdata.py` (lines 97–138),
accumulated in iteration order. -/
def plotComparisonChart (dd : List (String × Obj)) : List String → Except Unit CompChart
  | [] => .ok ⟨[], [], false⟩
  | t :: ts => do
    let r ← compChartStep dd t
    let rest ← plotComparisonChart dd ts
    match r with
    | none => .ok ⟨rest.traces, t :: rest.skipped, rest.anyTraces⟩
    | some vals => .ok ⟨(t, vals) :: rest.traces, rest.skipped, true⟩

/-! ### Predicates for the comparison-chart claim -/

/-- A ticker the claim calls failed: absent from the fetch map, mapped to an
empty (well-formed) table, or without a resolvable Close column. -/
def FailedTicker (dd : List (String × Obj)) (t : String) : Prop :=
  tickerRaw dd t = none ∨
  (∃ f, tickerRaw dd t = some (Obj.frame f) ∧ WFFrame f ∧ frameEmpty f = true) ∨
  (∃ raw, tickerRaw dd t = some raw ∧ getCloseSeries_fd raw = none)

/-- A ticker whose resolved Close series survives every guard of the plot
loop: non-empty, numeric, at least two non-`NaN` points, non-zero first
value. -/
def PlottableTicker (dd : List (String × Obj)) (t : String) : Prop :=
  ∃ raw close, tickerRaw dd t = some raw ∧ getCloseSeries_fd raw = some close ∧
    close.cells ≠ [] ∧ close.numeric = true ∧
    2 ≤ (dropNone close.cells).length ∧ (dropNone close.cells).headD 0 ≠ 0

/-! ### Concrete inputs used by the witnesses and counterexamples -/

/-- A one-column frame holding the given Close values. -/
def frameC (vals : List Val) : Frame := ⟨.flat [⟨"Close", vals, true⟩], vals.length⟩

/-- A flat frame with a numeric Close column and non-numeric (object-dtype)
High and Volume columns, and no Low column. -/
def exFrameHV : Frame :=
  ⟨.flat [⟨"Close", [some 100, some 110], true⟩,
          ⟨"High", [some 1, some 2], false⟩,
          ⟨"Volume", [some 5, some 6], false⟩], 2⟩

/-- The Close series `exFrameHV` resolves to. -/
def exCloseHV : PSeries := ⟨some (Label.flat "Close"), [some 100, some 110], true⟩

/-- A flat Price Table with Open and Close columns. -/
def exFrameOC : Frame :=
  ⟨.flat [⟨"Open", [some 7, some 8], true⟩, ⟨"Close", [some 100, some 110], true⟩], 2⟩

/-- A two-level frame with a `("Close", "AAPL")` pair next to a Volume pair. -/
def exFrameMulti : Frame :=
  ⟨.multi [⟨"Volume", "AAPL", [some 500, some 600], true⟩,
           ⟨"Close", "AAPL", [some 1, some 3], true⟩], 2⟩

/-- A flat frame with no close-like column at all. -/
def exFrameNoClose : Frame := ⟨.flat [⟨"Open", [some 7, some 8], true⟩], 2⟩

/-- The fetch map of the comparison-chart counterexample: ticker `A`
resolvable and well-behaved, ticker `B` resolvable with a zero first close
value. -/
def exChartDict : List (String × Obj) :=
  [("A", Obj.frame (frameC [some 100, some 110])),
   ("B", Obj.frame (frameC [some 0, some 110]))]

/-! ### Helper lemmas -/

/-- Monadic bind on `Except` evaluates on a success value. -/
theorem exceptOkBind (a : α) (f : α → Except ε β) : (Except.ok a >>= f) = f a := rfl

/-- C1: the total-return calculation.  Divergence at a Close series whose
first value is `0`: `metrics.py` line 30 has no zero guard and raises
`ZeroDivisionError` over `[0, 110]`, while `financialdata.py` line 342
guards and yields `0`.  Over `[100, 110]` both yield `+10.00%`. -/
theorem totalReturn_zero_first_divergence :
    compEntry_metrics (some (Obj.frame (frameC [some 0, some 110]))) = .error () ∧
    compEntry_fd (some (Obj.frame (frameC [some 0, some 110]))) =
      .ok (some ⟨some 110, some 0, none, none, some 0⟩) ∧
    compEntry_metrics (some (Obj.frame (frameC [some 100, some 110]))) =
      .ok (some ⟨some 110, some 10, none, some 0⟩) ∧
    compEntry_fd (some (Obj.frame (frameC [some 100, some 110]))) =
      .ok (some ⟨some 110, some 10, none, none, some 0⟩) := by
  refine ⟨rfl, rfl, ?_, ?_⟩
  · simp [compEntry_metrics, getCloseSeries_data, objEmptyE, frameEmpty, frameC, floatLast,
      floatFirst, floatCell, pyDiv, avgVolumeTry, hasColTop, ofFlatCol, volatility, sampleStd,
      sampleVarQ, pctChange, pctChangeAux, dropNone, strLower, closeAliases, exceptOkBind]
    norm_num
  · simp [compEntry_fd, getCloseSeries_fd, frameC, floatLast, floatFirst, floatCell, valDivG,
      hasColTop, ofFlatCol, exceptOkBind]
    norm_num

/-- C3 counterexample: a one-row table with a `Close` column has fewer than
the two rows the later computations need, yet the Resolver still returns
the column rather than the `None` sentinel — it performs no row-count
check. -/
theorem resolver_single_row_still_found :
    (frameC [some 100]).nrows < 2 ∧
    getCloseSeries_data (Obj.frame (frameC [some 100])) =
      some ⟨some (Label.flat "Close"), [some 100], true⟩ := ⟨by decide, rfl⟩

/-- C3 (amended): `data.py`'s `_get_close_series` returns the `None`
sentinel exactly when no column label case-insensitively matches a close
alias at some level; the number of rows plays no part. -/
theorem resolver_none_iff_no_qualifying (f : Frame) :
    getCloseSeries_data (Obj.frame f) = none ↔ ¬ QualifiesData f := by
  obtain ⟨cols, nrows⟩ := f
  cases cols with
  | flat cs =>
    simp [getCloseSeries_data, QualifiesData, List.find?_eq_none]
  | multi cs =>
    simp [getCloseSeries_data, QualifiesData, List.find?_eq_none]

/-- C3 witness: a frame with only an `Open` column resolves to `None`. -/
theorem resolver_none_iff_no_qualifying_w :
    getCloseSeries_data (Obj.frame exFrameNoClose) = none :=
  (resolver_none_iff_no_qualifying exFrameNoClose).mpr (by decide)

/-- C9 counterexample: on input `None` the Resolver returns the sentinel,
yet `rolling_average` evaluates `len(None)` and raises `TypeError` instead
of returning a `NaN` series. -/
theorem rolling_average_none_input_raises :
    getCloseSeries_data Obj.pynone = none ∧
    rollingAverage_data Obj.pynone 30 = .error () := ⟨rfl, rfl⟩

/-- C9 (amended): for every DataFrame input on which the Resolver returns
the sentinel, `rolling_average` returns a series of `NaN` values whose
length equals the length of the input. -/
theorem rolling_average_nan_frame (f : Frame) (w : ℕ)
    (h : getCloseSeries_data (Obj.frame f) = none) :
    rollingAverage_data (Obj.frame f) w = .ok (List.replicate f.nrows none) := by
  unfold rollingAverage_data
  rw [h]

/-- C9 witness: the `NaN` fallback over a two-row frame without a close
column. -/
theorem rolling_average_nan_frame_w :
    rollingAverage_data (Obj.frame exFrameNoClose) 30 =
      .ok (List.replicate exFrameNoClose.nrows none) :=
  rolling_average_nan_frame exFrameNoClose 30 rfl

/-- C10: the Resolver is idempotent up to the canonical renaming — feeding
a resolved series back into either `_get_close_series` returns it with its
values and order unchanged and the canonical `Close` label. -/
theorem resolver_idempotent_rename (x : Obj) (s : PSeries) :
    (getCloseSeries_data x = some s →
      getCloseSeries_data (Obj.series s) = some { s with name := some (Label.flat "Close") }) ∧
    (getCloseSeries_fd x = some s →
      getCloseSeries_fd (Obj.series s) = some { s with name := some (Label.flat "Close") }) :=
  ⟨fun _ => rfl, fun _ => rfl⟩

/-- C10 witness: re-resolving the series resolved from a concrete close
frame. -/
theorem resolver_idempotent_rename_w :
    getCloseSeries_data (Obj.series ⟨some (Label.flat "Close"), [some 100, some 110], true⟩) =
      some ⟨some (Label.flat "Close"), [some 100, some 110], true⟩ :=
  (resolver_idempotent_rename (Obj.frame (frameC [some 100, some 110]))
    ⟨some (Label.flat "Close"), [some 100, some 110], true⟩).1 rfl

/-- C7 counterexample: over the two-point constant series `[100, 100]` the
claim demands `0.00%`, but `pct_change` leaves a single observation and the
`ddof = 1` standard deviation of one observation is `NaN`, so the
volatility is `NaN`, not `0`. -/
theorem volatility_two_point_constant_nan :
    volatility (List.replicate 2 (some (100 : ℚ))) = none ∧
    volatility (List.replicate 2 (some (100 : ℚ))) ≠ some 0 :=
  ⟨rfl, by intro h; simp [volatility, sampleStd, sampleVarQ, pctChange, pctChangeAux,
    dropNone] at h⟩

/-- `pct_change` steps over a constant non-zero series are all `0`. -/
theorem pctChangeAux_const (c : ℚ) (hc : c ≠ 0) :
    ∀ k, pctChangeAux (some c) (List.replicate k (some c)) = List.replicate k (some 0) := by
  intro k
  induction k with
  | zero => rfl
  | succ m ih =>
    simp only [List.replicate_succ, pctChangeAux, ih, if_neg hc, sub_self, zero_div]

/-- Dropping `NaN`s from a constant non-`NaN` series keeps every entry. -/
theorem dropNone_replicate_some (q : ℚ) :
    ∀ k, dropNone (List.replicate k (some q)) = List.replicate k q := by
  intro k
  induction k with
  | zero => rfl
  | succ m ih => simp only [List.replicate_succ, dropNone, List.filterMap_cons] at ih ⊢; simp [ih]

/-- C7 (amended): over every constant series of at least three equal
non-zero points the volatility (std of `pct_change`, times 100) is exactly
`0.00%`; with only two points the lone return's sample deviation is `NaN`
(see the counterexample), and an all-zero constant series also yields
`NaN`. -/
theorem volatility_constant_nonzero (c : ℚ) (hc : c ≠ 0) (n : ℕ) (hn : 3 ≤ n) :
    volatility (List.replicate n (some c)) = some 0 := by
  obtain ⟨m, rfl⟩ : ∃ m, n = m + 1 := ⟨n - 1, by omega⟩
  have hm : 2 ≤ m := by omega
  have h1 : pctChange (List.replicate (m + 1) (some c)) = none :: List.replicate m (some 0) := by
    rw [List.replicate_succ]
    simp only [pctChange, pctChangeAux_const c hc]
  have h2 : dropNone (pctChange (List.replicate (m + 1) (some c))) = List.replicate m 0 := by
    rw [h1]
    simp only [dropNone, List.filterMap_cons]
    exact dropNone_replicate_some 0 m
  have h3 : sampleVarQ (List.replicate m 0) = some 0 := by
    unfold sampleVarQ
    rw [List.length_replicate, if_neg (by omega)]
    have hs : (List.replicate m (0 : ℚ)).sum = 0 := by simp
    rw [List.map_replicate, hs]
    simp
  unfold volatility sampleStd
  rw [h2, h3]
  simp

/-- C7 witness: `[100, 100, 100]` yields `0.00%` volatility. -/
theorem volatility_constant_nonzero_w :
    volatility (List.replicate 3 (some (100 : ℚ))) = some 0 :=
  volatility_constant_nonzero 100 (by norm_num) 3 (by norm_num)

/-- A Price-Table field name other than `Close` matches no close alias,
case-insensitively or exactly. -/
theorem nonclose_field_no_alias (s : String) (hs : s ∈ fieldNames) (hne : s ≠ "Close") :
    strLower s ∉ closeAliases ∧ (s == "Close") = false ∧ (strLower s == "close") = false := by
  simp only [fieldNames, List.mem_cons, List.mem_singleton, List.not_mem_nil, or_false] at hs
  rcases hs with rfl | rfl | rfl | rfl | rfl
  · exact ⟨by decide, by decide, by decide⟩
  · exact ⟨by decide, by decide, by decide⟩
  · exact ⟨by decide, by decide, by decide⟩
  · exact (hne rfl).elim
  · exact ⟨by decide, by decide, by decide⟩

/-- In a flat Price Table whose only close-like column is the exact `Close`
column, both resolver loops find exactly that column first. -/
theorem find_flat_close (cs : List FlatCol) (c0 : FlatCol)
    (hfield : ∀ c ∈ cs, c.name ∈ fieldNames)
    (hmem : c0 ∈ cs) (hc0 : c0.name = "Close")
    (huniq : ∀ c ∈ cs, c.name = "Close" → c = c0) :
    cs.find? (fun c => decide (strLower c.name ∈ closeAliases)) = some c0 ∧
    cs.find? (fun c => c.name == "Close") = some c0 := by
  induction cs with
  | nil => cases hmem
  | cons d tl ih =>
    by_cases hd : d.name = "Close"
    · have hdc : d = c0 := huniq d (List.mem_cons_self d tl) hd
      subst hdc
      constructor
      · rw [List.find?_cons_of_pos]
        rw [hd]; decide
      · rw [List.find?_cons_of_pos]
        rw [hd]; decide
    · have hf := nonclose_field_no_alias d.name (hfield d (List.mem_cons_self d tl)) hd
      have hmem0 : c0 ∈ tl := by
        rcases List.mem_cons.mp hmem with rfl | h
        · exact (hd hc0).elim
        · exact h
      have ih2 := ih (fun c hc => hfield c (List.mem_cons_of_mem d hc)) hmem0
        (fun c hc h => huniq c (List.mem_cons_of_mem d hc) h)
      constructor
      · rw [List.find?_cons_of_neg, ih2.1]
        simp [hf.1]
      · rw [List.find?_cons_of_neg, ih2.2]
        simp [hf.2.1]

/-- C5: for every Price Table with flat columns (field-named, at most one
per field) one of which is named exactly `Close`, both variants of the
Resolver return that column with its values and order unchanged. -/
theorem resolver_flat_exact_close (cs : List FlatCol) (nrows : ℕ) (c0 : FlatCol)
    (hfield : ∀ c ∈ cs, c.name ∈ fieldNames)
    (hmem : c0 ∈ cs) (hc0 : c0.name = "Close")
    (huniq : ∀ c ∈ cs, c.name = "Close" → c = c0) :
    getCloseSeries_data (Obj.frame ⟨Cols.flat cs, nrows⟩) = some (ofFlatCol c0) ∧
    getCloseSeries_fd (Obj.frame ⟨Cols.flat cs, nrows⟩) = some (ofFlatCol c0) := by
  obtain ⟨h1, h2⟩ := find_flat_close cs c0 hfield hmem hc0 huniq
  constructor
  · simp only [getCloseSeries_data, h1]; rfl
  · simp only [getCloseSeries_fd, h2]

/-- C5 witness: an Open/Close table resolves to the `Close` column,
unchanged. -/
theorem resolver_flat_exact_close_w :
    getCloseSeries_data (Obj.frame exFrameOC) =
      some (ofFlatCol ⟨"Close", [some 100, some 110], true⟩) ∧
    getCloseSeries_fd (Obj.frame exFrameOC) =
      some (ofFlatCol ⟨"Close", [some 100, some 110], true⟩) :=
  resolver_flat_exact_close _ 2 _ (by decide) (by decide) rfl (by decide)

/-- In a two-level Price Table whose only `Close`-field column is the
`("Close", ticker)` pair, both resolver loops find exactly that pair. -/
theorem find_multi_close (cs : List MultiCol) (c0 : MultiCol)
    (hfield : ∀ c ∈ cs, c.l0 ∈ fieldNames ∧ strLower c.l1 ∉ closeAliases)
    (hmem : c0 ∈ cs) (hc0 : c0.l0 = "Close")
    (huniq : ∀ c ∈ cs, c.l0 = "Close" → c = c0) :
    cs.find? (fun c =>
      decide (strLower c.l0 ∈ closeAliases) || decide (strLower c.l1 ∈ closeAliases)) = some c0 ∧
    cs.find? (fun c => strLower c.l0 == "close") = some c0 := by
  induction cs with
  | nil => cases hmem
  | cons d tl ih =>
    by_cases hd : d.l0 = "Close"
    · have hdc : d = c0 := huniq d (List.mem_cons_self d tl) hd
      subst hdc
      have e1 : decide (strLower d.l0 ∈ closeAliases) = true := by rw [hd]; decide
      have e2 : (strLower d.l0 == "close") = true := by rw [hd]; decide
      constructor
      · rw [List.find?_cons_of_pos]
        simp [e1]
      · rw [List.find?_cons_of_pos]
        simp [e2]
    · have hf := nonclose_field_no_alias d.l0 (hfield d (List.mem_cons_self d tl)).1 hd
      have hl1 : strLower d.l1 ∉ closeAliases := (hfield d (List.mem_cons_self d tl)).2
      have hmem0 : c0 ∈ tl := by
        rcases List.mem_cons.mp hmem with rfl | h
        · exact (hd hc0).elim
        · exact h
      have ih2 := ih (fun c hc => hfield c (List.mem_cons_of_mem d hc)) hmem0
        (fun c hc h => huniq c (List.mem_cons_of_mem d hc) h)
      constructor
      · rw [List.find?_cons_of_neg, ih2.1]
        simp [hf.1, hl1]
      · rw [List.find?_cons_of_neg, ih2.2]
        simp [hf.2.2]

/-- C6: for every two-level (`MultiIndex`) Price Table whose single
close-field pair is `("Close", "AAPL")`, both variants of the Resolver
return that pair's column — a result containing the AAPL close values. -/
theorem resolver_multiindex_close_pair (cs : List MultiCol) (nrows : ℕ) (c0 : MultiCol)
    (hfield : ∀ c ∈ cs, c.l0 ∈ fieldNames ∧ strLower c.l1 ∉ closeAliases)
    (hmem : c0 ∈ cs) (hc0 : c0.l0 = "Close") (ht : c0.l1 = "AAPL")
    (huniq : ∀ c ∈ cs, c.l0 = "Close" → c = c0) :
    getCloseSeries_data (Obj.frame ⟨Cols.multi cs, nrows⟩) = some (ofMultiCol c0) ∧
    getCloseSeries_fd (Obj.frame ⟨Cols.multi cs, nrows⟩) = some (ofMultiCol c0) := by
  obtain ⟨h1, h2⟩ := find_multi_close cs c0 hfield hmem hc0 huniq
  constructor
  · simp only [getCloseSeries_data, h1]; rfl
  · simp only [getCloseSeries_fd, h2]

/-- C6 witness: a Volume/Close `MultiIndex` table resolves to the
`("Close", "AAPL")` column. -/
theorem resolver_multiindex_close_pair_w :
    getCloseSeries_data (Obj.frame exFrameMulti) =
      some (ofMultiCol ⟨"Close", "AAPL", [some 1, some 3], true⟩) ∧
    getCloseSeries_fd (Obj.frame exFrameMulti) =
      some (ofMultiCol ⟨"Close", "AAPL", [some 1, some 3], true⟩) :=
  resolver_multiindex_close_pair _ 2 _ (by decide) (by decide) rfl rfl (by decide)

/-- Provenance of both resolvers: every resolved series is the renamed
input series or one of the input frame's columns. -/
theorem resolver_provenance_aux (d : Obj) (s : PSeries)
    (h : getCloseSeries_data d = some s ∨ getCloseSeries_fd d = some s) :
    FromObj d s := by
  rcases h with h | h
  · cases d with
    | pynone => exact absurd h (by simp [getCloseSeries_data])
    | series s0 =>
      refine Or.inl ⟨s0, rfl, ?_⟩
      simp only [getCloseSeries_data] at h
      cases h
      rfl
    | frame f =>
      obtain ⟨cols, nrows⟩ := f
      refine Or.inr ⟨⟨cols, nrows⟩, rfl, ?_⟩
      cases cols with
      | flat cs =>
        simp only [getCloseSeries_data] at h
        cases hf : cs.find? (fun c => decide (strLower c.name ∈ closeAliases)) with
        | none => rw [hf] at h; exact absurd h (by simp)
        | some c =>
          rw [hf] at h
          obtain rfl : ofFlatCol c = s := by simpa using h
          exact List.mem_map_of_mem FlatCol.cells (List.mem_of_find?_eq_some hf)
      | multi cs =>
        simp only [getCloseSeries_data] at h
        cases hf : cs.find? (fun c =>
            decide (strLower c.l0 ∈ closeAliases) || decide (strLower c.l1 ∈ closeAliases)) with
        | none => rw [hf] at h; exact absurd h (by simp)
        | some c =>
          rw [hf] at h
          obtain rfl : ofMultiCol c = s := by simpa using h
          exact List.mem_map_of_mem MultiCol.cells (List.mem_of_find?_eq_some hf)
  · cases d with
    | pynone => exact absurd h (by simp [getCloseSeries_fd])
    | series s0 =>
      refine Or.inl ⟨s0, rfl, ?_⟩
      simp only [getCloseSeries_fd] at h
      cases h
      rfl
    | frame f =>
      obtain ⟨cols, nrows⟩ := f
      refine Or.inr ⟨⟨cols, nrows⟩, rfl, ?_⟩
      cases cols with
      | flat cs =>
        simp only [getCloseSeries_fd] at h
        split at h
        case _ c hf =>
          obtain rfl : ofFlatCol c = s := by simpa using h
          exact List.mem_map_of_mem FlatCol.cells (List.mem_of_find?_eq_some hf)
        case _ hf =>
          split at h
          case _ c hg =>
            obtain rfl : ofFlatCol c = s := by simpa using h
            have hmem : c ∈ cs := by
              obtain ⟨alt, halt, hfind⟩ := List.exists_of_findSome?_eq_some hg
              exact List.mem_of_find?_eq_some hfind
            exact List.mem_map_of_mem FlatCol.cells hmem
          case _ hg =>
            cases hn : cs.find? (fun c => c.numeric) with
            | none => rw [hn] at h; exact absurd h (by simp)
            | some c =>
              rw [hn] at h
              obtain rfl : ofFlatCol c = s := by simpa using h
              exact List.mem_map_of_mem FlatCol.cells (List.mem_of_find?_eq_some hn)
      | multi cs =>
        simp only [getCloseSeries_fd] at h
        split at h
        case _ c hf =>
          obtain rfl : ofMultiCol c = s := by simpa using h
          exact List.mem_map_of_mem MultiCol.cells (List.mem_of_find?_eq_some hf)
        case _ hf =>
          split at h
          case _ c hg =>
            obtain rfl : ofMultiCol c = s := by simpa using h
            exact List.mem_map_of_mem MultiCol.cells (List.mem_of_find?_eq_some hg)
          case _ hg =>
            cases hn : cs.find? (fun c => c.numeric) with
            | none => rw [hn] at h; exact absurd h (by simp)
            | some c =>
              rw [hn] at h
              obtain rfl : ofMultiCol c = s := by simpa using h
              exact List.mem_map_of_mem MultiCol.cells (List.mem_of_find?_eq_some hn)

/-- C8: for every input — `None`, a Series, or a DataFrame of any column
shape — `_get_close_series` (both variants) is total and every non-`None`
result is genuine input data: the renamed input series or the cells of one
of the input's columns.  Totality of the embedding reflects that every
unguarded column lookup of the source uses a label drawn from
`data.columns`; the remaining lookups sit inside `try/except`. -/
theorem resolver_total_provenance (d : Obj) (s : PSeries)
    (h : getCloseSeries_data d = some s ∨ getCloseSeries_fd d = some s) :
    FromObj d s := resolver_provenance_aux d s h

/-- C8 witness: the resolved series of the Open/Close table is one of its
columns. -/
theorem resolver_total_provenance_w :
    FromObj (Obj.frame exFrameOC) (ofFlatCol ⟨"Close", [some 100, some 110], true⟩) :=
  resolver_total_provenance _ _ (Or.inl rfl)

/-- With a numeric Close series the High extraction always succeeds (the
risky coercion sits inside `try/except`). -/
theorem dashHigh_ok (f : Frame) (close : PSeries) (hnum : close.numeric = true) :
    ∃ v, dashHigh (Obj.frame f) close = .ok v := by
  simp only [dashHigh]
  by_cases hH : hasColTop f "High"
  · rw [if_pos hH]
    cases hA : aggCol seriesMax f "High" with
    | none => exact ⟨seriesMax close.cells, by simp [floatCell, hnum]⟩
    | some v => exact ⟨v, rfl⟩
  · rw [if_neg hH]
    exact ⟨seriesMax close.cells, by simp [floatCell, hnum]⟩

/-- When the High column is absent or its coercion raises, the extraction
falls back to the Close series' maximum. -/
theorem dashHigh_fallback (f : Frame) (close : PSeries) (hnum : close.numeric = true)
    (h : hasColTop f "High" = false ∨ aggCol seriesMax f "High" = none) :
    dashHigh (Obj.frame f) close = .ok (seriesMax close.cells) := by
  simp only [dashHigh]
  rcases h with h | h
  · rw [if_neg (by simp [h])]
    simp [floatCell, hnum]
  · by_cases hH : hasColTop f "High"
    · rw [if_pos hH, h]
      simp [floatCell, hnum]
    · rw [if_neg hH]
      simp [floatCell, hnum]

/-- With a numeric Close series the Low extraction always succeeds. -/
theorem dashLow_ok (f : Frame) (close : PSeries) (hnum : close.numeric = true) :
    ∃ v, dashLow (Obj.frame f) close = .ok v := by
  simp only [dashLow]
  by_cases hH : hasColTop f "Low"
  · rw [if_pos hH]
    cases hA : aggCol seriesMin f "Low" with
    | none => exact ⟨seriesMin close.cells, by simp [floatCell, hnum]⟩
    | some v => exact ⟨v, rfl⟩
  · rw [if_neg hH]
    exact ⟨seriesMin close.cells, by simp [floatCell, hnum]⟩

/-- When the Low column is absent or its coercion raises, the extraction
falls back to the Close series' minimum. -/
theorem dashLow_fallback (f : Frame) (close : PSeries) (hnum : close.numeric = true)
    (h : hasColTop f "Low" = false ∨ aggCol seriesMin f "Low" = none) :
    dashLow (Obj.frame f) close = .ok (seriesMin close.cells) := by
  simp only [dashLow]
  rcases h with h | h
  · rw [if_neg (by simp [h])]
    simp [floatCell, hnum]
  · by_cases hH : hasColTop f "Low"
    · rw [if_pos hH, h]
      simp [floatCell, hnum]
    · rw [if_neg hH]
      simp [floatCell, hnum]

/-- When the Volume column is absent or its coercion raises, the mean
volume falls back to `0`. -/
theorem avgVolumeTry_fallback (f : Frame)
    (h : hasColTop f "Volume" = false ∨ aggCol seriesMean f "Volume" = none) :
    avgVolumeTry (Obj.frame f) = some 0 := by
  simp only [avgVolumeTry]
  rcases h with h | h
  · rw [h]
    simp
  · by_cases hH : hasColTop f "Volume"
    · rw [if_pos hH, h]
    · rw [if_neg hH]

/-- C4: on every non-empty table with a resolvable numeric Close series,
`create_metrics_dashboard` returns a metrics record without raising, and
when the High, Low, or Volume column is absent or unusable (its numeric
coercion raises) the respective aggregate falls back to the Close series'
maximum, its minimum, or `0`. -/
theorem dashboard_fallbacks (f : Frame) (close : PSeries)
    (hres : getCloseSeries_fd (Obj.frame f) = some close)
    (hnum : close.numeric = true)
    (hne : close.cells ≠ [])
    (hfe : frameEmpty f = false) :
    ∃ m, createMetricsDashboard_fd (Obj.frame f) = .ok (some m) ∧
      ((hasColTop f "High" = false ∨ aggCol seriesMax f "High" = none) →
        m.high52 = seriesMax close.cells) ∧
      ((hasColTop f "Low" = false ∨ aggCol seriesMin f "Low" = none) →
        m.low52 = seriesMin close.cells) ∧
      ((hasColTop f "Volume" = false ∨ aggCol seriesMean f "Volume" = none) →
        m.avgVolume = some 0) := by
  obtain ⟨v, hv⟩ : ∃ v, floatLast close = .ok v := by
    unfold floatLast
    cases hl : close.cells.getLast? with
    | none => exact absurd (List.getLast?_eq_none_iff.mp hl) hne
    | some v => exact ⟨v, by simp [floatCell, hnum]⟩
  obtain ⟨w, hw⟩ : ∃ w,
      (if close.cells.length > 1 then floatIdx close (close.cells.length - 2)
       else (.ok v : Except Unit Val)) = .ok w := by
    by_cases hlen : close.cells.length > 1
    · rw [if_pos hlen]
      unfold floatIdx
      cases hg : close.cells.get? (close.cells.length - 2) with
      | none =>
        have := List.get?_eq_none.mp hg
        omega
      | some w => exact ⟨w, by simp [floatCell, hnum]⟩
    · rw [if_neg hlen]
      exact ⟨v, rfl⟩
  obtain ⟨vh, hvh⟩ := dashHigh_ok f close hnum
  obtain ⟨vl, hvl⟩ := dashLow_ok f close hnum
  have hlen0 : ¬ close.cells.length = 0 := by
    simpa [List.length_eq_zero] using hne
  refine ⟨⟨v, if w = some 0 then some 0 else (valDivG (valSub v w) w).map (fun r => r * 100),
    vh, vl, avgVolumeTry (Obj.frame f)⟩, ?_, ?_, ?_, ?_⟩
  · unfold createMetricsDashboard_fd
    simp only [objNoneOrEmpty, hfe, Bool.false_eq_true, if_false, hres, if_neg hlen0, hv,
      exceptOkBind, hvh, hvl]
    by_cases hlen : close.cells.length > 1
    · rw [if_pos hlen] at hw
      rw [if_pos hlen, hw, exceptOkBind]
    · rw [if_neg hlen] at hw
      obtain rfl : v = w := by simpa using hw
      rw [if_neg hlen]
  · intro hc
    have h2 := dashHigh_fallback f close hnum hc
    rw [hvh] at h2
    simpa using h2
  · intro hc
    have h2 := dashLow_fallback f close hnum hc
    rw [hvl] at h2
    simpa using h2
  · intro hc
    exact avgVolumeTry_fallback f hc

/-- C4 witness: a frame with a numeric Close column, non-numeric High and
Volume columns, and no Low column hits all three fallbacks. -/
theorem dashboard_fallbacks_w :
    ∃ m, createMetricsDashboard_fd (Obj.frame exFrameHV) = .ok (some m) ∧
      ((hasColTop exFrameHV "High" = false ∨ aggCol seriesMax exFrameHV "High" = none) →
        m.high52 = seriesMax exCloseHV.cells) ∧
      ((hasColTop exFrameHV "Low" = false ∨ aggCol seriesMin exFrameHV "Low" = none) →
        m.low52 = seriesMin exCloseHV.cells) ∧
      ((hasColTop exFrameHV "Volume" = false ∨ aggCol seriesMean exFrameHV "Volume" = none) →
        m.avgVolume = some 0) :=
  dashboard_fallbacks exFrameHV exCloseHV rfl rfl (by decide) rfl

/-- Monadic bind on `Except` short-circuits an error. -/
theorem exceptErrBind (e : ε) (f : α → Except ε β) :
    ((Except.error e : Except ε α) >>= f) = Except.error e := rfl

/-- A failed ticker's loop iteration appends to `skipped`. -/
theorem step_none_of_failed (dd : List (String × Obj)) (t : String)
    (h : FailedTicker dd t) : compChartStep dd t = .ok none := by
  unfold compChartStep
  rcases h with h | ⟨f, hraw, hwf, hemp⟩ | ⟨raw, hraw, hres⟩
  · rw [h]
  · simp only [hraw]
    cases hres : getCloseSeries_fd (Obj.frame f) with
    | none => rfl
    | some close =>
      have hcells : close.cells ∈ frameCellLists f := by
        rcases resolver_provenance_aux _ _ (Or.inr hres) with ⟨s0, h0, _⟩ | ⟨f2, hf2, hm⟩
        · cases h0
        · cases hf2
          exact hm
      have hor : f.nrows = 0 ∨ frameCellLists f = [] := by
        rcases Bool.or_eq_true _ _ |>.mp hemp with h0 | h0
        · exact Or.inl (by simpa using h0)
        · right
          unfold frameCellLists
          cases hc : f.cols with
          | flat cs => rw [hc] at h0; simp [List.isEmpty_iff.mp h0]
          | multi cs => rw [hc] at h0; simp [List.isEmpty_iff.mp h0]
      rcases hor with h0 | h0
      · have hlen : close.cells.length = 0 := h0 ▸ hwf close.cells hcells
        simp only [hlen, if_pos]
      · rw [h0] at hcells
        cases hcells
  · simp only [hraw, hres]

/-- A plottable ticker's loop iteration adds a trace. -/
theorem step_some_of_plottable (dd : List (String × Obj)) (t : String)
    (h : PlottableTicker dd t) :
    ∃ vals, compChartStep dd t = .ok (some vals) := by
  obtain ⟨raw, close, hraw, hres, hne, hnum, hlen, hstart⟩ := h
  have h0 : ¬ close.cells.length = 0 := by simpa [List.length_eq_zero] using hne
  have h1 : ¬ (dropNone close.cells).length < 2 := by omega
  refine ⟨(dropNone close.cells).map
    (fun x => (x / (dropNone close.cells).headD 0 - 1) * 100), ?_⟩
  simp only [compChartStep, hraw, hres, if_neg h0, if_neg h1, hnum, Bool.true_eq_false,
    if_false, if_neg hstart]

/-- Every trace name and every skipped name comes from the requested
ticker list. -/
theorem chart_names_subset (dd : List (String × Obj)) (ts : List String) (cc : CompChart)
    (h : plotComparisonChart dd ts = .ok cc) :
    (∀ p ∈ cc.traces, p.1 ∈ ts) ∧ (∀ x ∈ cc.skipped, x ∈ ts) := by
  induction ts generalizing cc with
  | nil =>
    obtain rfl : CompChart.mk [] [] false = cc := by simpa [plotComparisonChart] using h
    exact ⟨by simp, by simp⟩
  | cons a ts ih =>
    rw [plotComparisonChart] at h
    cases hs : compChartStep dd a with
    | error e => rw [hs, exceptErrBind] at h; cases h
    | ok r =>
      rw [hs, exceptOkBind] at h
      cases hr : plotComparisonChart dd ts with
      | error e => rw [hr, exceptErrBind] at h; cases h
      | ok rest =>
        rw [hr, exceptOkBind] at h
        obtain ⟨h1, h2⟩ := ih rest hr
        cases r with
        | none =>
          obtain rfl : CompChart.mk rest.traces (a :: rest.skipped) rest.anyTraces = cc := by
            simpa using h
          refine ⟨fun p hp => List.mem_cons_of_mem a (h1 p hp), fun x hx => ?_⟩
          rcases List.mem_cons.mp hx with rfl | hx
          · exact List.mem_cons_self x ts
          · exact List.mem_cons_of_mem a (h2 x hx)
        | some vals =>
          obtain rfl : CompChart.mk ((a, vals) :: rest.traces) rest.skipped true = cc := by
            simpa using h
          refine ⟨fun p hp => ?_, fun x hx => List.mem_cons_of_mem a (h2 x hx)⟩
          rcases List.mem_cons.mp hp with rfl | hp
          · exact List.mem_cons_self a ts
          · exact List.mem_cons_of_mem a (h1 p hp)

/-- Loop-outcome membership: a ticker whose iteration skips lands in the
`skipped` list and not among the traces, and one whose iteration adds a
trace lands among the traces and not in `skipped`. -/
theorem chart_mem_aux (dd : List (String × Obj)) (ts : List String) (cc : CompChart)
    (h : plotComparisonChart dd ts = .ok cc) (t : String) (ht : t ∈ ts) :
    (compChartStep dd t = .ok none → t ∈ cc.skipped ∧ t ∉ cc.traces.map Prod.fst) ∧
    (∀ vals, compChartStep dd t = .ok (some vals) →
      t ∈ cc.traces.map Prod.fst ∧ t ∉ cc.skipped) := by
  induction ts generalizing cc with
  | nil => cases ht
  | cons a ts ih =>
    rw [plotComparisonChart] at h
    cases hs : compChartStep dd a with
    | error e => rw [hs, exceptErrBind] at h; cases h
    | ok r =>
      rw [hs, exceptOkBind] at h
      cases hr : plotComparisonChart dd ts with
      | error e => rw [hr, exceptErrBind] at h; cases h
      | ok rest =>
        rw [hr, exceptOkBind] at h
        obtain ⟨hsub1, hsub2⟩ := chart_names_subset dd ts rest hr
        cases r with
        | none =>
          obtain rfl : CompChart.mk rest.traces (a :: rest.skipped) rest.anyTraces = cc := by
            simpa using h
          constructor
          · intro hstep
            by_cases hts : t ∈ ts
            · obtain ⟨hskip, htr⟩ := (ih rest hr hts).1 hstep
              exact ⟨List.mem_cons_of_mem a hskip, htr⟩
            · have hta : t = a := by
                rcases List.mem_cons.mp ht with h2 | h2
                · exact h2
                · exact absurd h2 hts
              subst hta
              refine ⟨List.mem_cons_self t _, fun hmem => ?_⟩
              obtain ⟨p, hp, rfl⟩ := List.mem_map.mp hmem
              exact hts (hsub1 p hp)
          · intro vals hstep
            by_cases hts : t ∈ ts
            · obtain ⟨htr, hskip⟩ := (ih rest hr hts).2 vals hstep
              refine ⟨htr, fun hmem => ?_⟩
              rcases List.mem_cons.mp hmem with rfl | hmem
              · exact absurd (hstep.symm.trans hs) (by simp)
              · exact hskip hmem
            · have hta : t = a := by
                rcases List.mem_cons.mp ht with h2 | h2
                · exact h2
                · exact absurd h2 hts
              subst hta
              exact absurd (hstep.symm.trans hs) (by simp)
        | some vals0 =>
          obtain rfl : CompChart.mk ((a, vals0) :: rest.traces) rest.skipped true = cc := by
            simpa using h
          constructor
          · intro hstep
            by_cases hts : t ∈ ts
            · obtain ⟨hskip, htr⟩ := (ih rest hr hts).1 hstep
              refine ⟨hskip, fun hmem => ?_⟩
              rcases List.mem_map.mp hmem with ⟨p, hp, rfl⟩
              rcases List.mem_cons.mp hp with rfl | hp
              · exact absurd (hstep.symm.trans hs) (by simp)
              · exact htr (List.mem_map_of_mem Prod.fst hp)
            · have hta : t = a := by
                rcases List.mem_cons.mp ht with h2 | h2
                · exact h2
                · exact absurd h2 hts
              subst hta
              exact absurd (hstep.symm.trans hs) (by simp)
          · intro vals hstep
            by_cases hts : t ∈ ts
            · obtain ⟨htr, hskip⟩ := (ih rest hr hts).2 vals hstep
              exact ⟨by
                rcases List.mem_map.mp htr with ⟨p, hp, rfl⟩
                exact List.mem_map_of_mem Prod.fst (List.mem_cons_of_mem _ hp), hskip⟩
            · have hta : t = a := by
                rcases List.mem_cons.mp ht with h2 | h2
                · exact h2
                · exact absurd h2 hts
              subst hta
              refine ⟨?_, fun hmem => hts (hsub2 t hmem)⟩
              exact List.mem_map_of_mem Prod.fst (List.mem_cons_self _ _)

/-- C2 (amended): whenever `plot_comparison_chart` completes, every
requested ticker whose table is absent or empty or whose Close column is
unresolvable is excluded from the plotted trace set and appears in the
`skipped` list, and every requested ticker whose resolved numeric Close
series keeps at least two non-`NaN` points with a non-zero first value is
plotted and not skipped.  (A resolvable ticker failing those guards — e.g.
a zero first value — is skipped as well, which is what falsifies the
original claim; and the `skipped` list is surfaced in a warning only when
at least one other ticker plots.) -/
theorem comparison_chart_skip_partition (dd : List (String × Obj)) (ts : List String)
    (cc : CompChart) (h : plotComparisonChart dd ts = .ok cc) (t : String) (ht : t ∈ ts) :
    (FailedTicker dd t → t ∈ cc.skipped ∧ t ∉ cc.traces.map Prod.fst) ∧
    (PlottableTicker dd t → t ∈ cc.traces.map Prod.fst ∧ t ∉ cc.skipped) := by
  constructor
  · intro hf
    exact (chart_mem_aux dd ts cc h t ht).1 (step_none_of_failed dd t hf)
  · intro hp
    obtain ⟨vals, hv⟩ := step_some_of_plottable dd t hp
    exact (chart_mem_aux dd ts cc h t ht).2 vals hv

/-- C2 counterexample: ticker `B`'s Close column resolves (to `[0, 110]`),
yet `B` is excluded from the traces and lands in `skipped` because its
first value is zero — refuting "every remaining ticker with a resolvable
Close Series is still plotted". -/
theorem comparison_resolvable_zero_start_skipped :
    getCloseSeries_fd (Obj.frame (frameC [some 0, some 110])) =
      some ⟨some (Label.flat "Close"), [some 0, some 110], true⟩ ∧
    plotComparisonChart exChartDict ["A", "B"] =
      .ok ⟨[("A", [0, 10])], ["B"], true⟩ := by
  refine ⟨rfl, ?_⟩
  simp [plotComparisonChart, compChartStep, tickerRaw, getCloseSeries_fd, frameC, dropNone,
    ofFlatCol, exChartDict, exceptOkBind]
  norm_num

/-- C2 witness: ticker `A` of the concrete two-ticker dictionary is
plotted and not skipped. -/
theorem comparison_chart_skip_partition_w :
    "A" ∈ (CompChart.mk [("A", [0, 10])] ["B"] true).traces.map Prod.fst ∧
    "A" ∉ (CompChart.mk [("A", [0, 10])] ["B"] true).skipped :=
  (comparison_chart_skip_partition exChartDict ["A", "B"]
    (CompChart.mk [("A", [0, 10])] ["B"] true)
    (by simp [plotComparisonChart, compChartStep, tickerRaw, getCloseSeries_fd, frameC, dropNone,
          ofFlatCol, exChartDict, exceptOkBind]
        norm_num)
    "A" (by decide)).2
    ⟨Obj.frame (frameC [some 100, some 110]),
     ⟨some (Label.flat "Close"), [some 100, some 110], true⟩,
     rfl, rfl, by decide, rfl, by decide, by decide⟩
